import Mathlib

/-!
# Verification of the meme-generator widget (`src/script.js`)

This file gives a shallow embedding of the two subsystems of `src/script.js`:

* the **text-fit engine** (`growTextToFit`, `shrinkTextToFit`,
  `shrinkTextToFitHelper`, `textFits`, `adjustMemeTextSize`), and
* the **selection state machine** (`memeClickHandler`, `mouseOverHandler`,
  `mouseLeaveHandler`, `ownCurtainVisible`, `deleteMeme`, `removeCurtain`,
  `addCurtain`, `generateMeme`),

and proves the testable properties of the specification against it.

Modelling decisions:

* Layout measurement (`offsetHeight` of the two caption paragraphs and of the
  meme container) is abstracted into a `Meas` record: the rendered heights of
  the top and bottom text are arbitrary functions of the current integer font
  size, and the container height is a constant of the current layout (the
  card's box is determined by the image and the viewport width, not by the
  overlaid text).  One `Meas` value describes one card at one viewport width.
* Font sizes are integers (`parseInt` of the computed style; every write in
  the source is an integer number of pixels).
* The unbounded recursion of `shrinkTextToFitHelper` is embedded with a fuel
  parameter; `none` models a call that never returns.
* The DOM tree is embedded as a `PageState`: the ordered list of meme cards
  in the grid, the previous window width, and the three form fields.
-/

namespace MemeGen

/-- Layout measurement of one meme card at the current viewport width:
`topTextHeight fs` and `bottomTextHeight fs` are the rendered heights
(`offsetHeight`) of the two caption paragraphs when the card's font size is
`fs`, and `containerHeight` is the rendered height (`offsetHeight`) of the
meme container itself. -/
structure Meas where
  topTextHeight : Int → Nat
  bottomTextHeight : Int → Nat
  containerHeight : Nat

/-- `textFits` of `script.js` (lines 203–210): the summed heights of the two
caption paragraphs do not exceed the container height. -/
def textFits (m : Meas) (fontSize : Int) : Bool :=
  m.topTextHeight fontSize + m.bottomTextHeight fontSize ≤ m.containerHeight

/-- `shrinkTextToFitHelper` of `script.js` (lines 191–199): if the text fits
stop, otherwise decrease the font size by one and recurse.  The source
recursion has no lower bound, so it is embedded with fuel: `some fs` is a run
that returned with final font size `fs`, `none` a run that did not return
within `fuel` steps. -/
def shrinkTextToFitHelper (m : Meas) : Nat → Int → Option Int
  | 0, _ => none
  | fuel + 1, fontSize =>
    if textFits m fontSize then
      some fontSize
    else
      shrinkTextToFitHelper m fuel (fontSize - 1)

/-- `shrinkTextToFit` of `script.js` (lines 176–187): resolve the card and its
current computed font size, then run the helper from that size.  In the
embedding the card's current font size is the `fontSize` argument. -/
def shrinkTextToFit (m : Meas) (fuel : Nat) (fontSize : Int) : Option Int :=
  shrinkTextToFitHelper m fuel fontSize

/-- `growTextToFit` of `script.js` (lines 159–170): return unchanged once the
font size is at least 40; otherwise, if the text no longer fits, backtrack by
one shrink pass; otherwise bump the font size by one and recurse. -/
def growTextToFit (m : Meas) (fuel : Nat) (fontSize : Int) : Option Int :=
  if h40 : 40 ≤ fontSize then
    some fontSize
  else if textFits m fontSize = false then
    shrinkTextToFit m fuel fontSize
  else
    growTextToFit m fuel (fontSize + 1)
termination_by (40 - fontSize).toNat
decreasing_by omega

/-- One meme card (`.meme-container` element): its two caption lines, image
URL, whether hover listeners were wired at creation time, its current font
size, and whether its curtain is raised.

Modelled from the spec: `style.css` is not among the sources, so the CSS rule
that renders a curtain with `data-toggle-visibility="true"` as
`visibility: visible` is taken from the spec's definition of `armed` ("true
iff this card's delete-confirmation affordance is currently visible"); the
single boolean `armed` stands for both the data attribute and the computed
visibility. -/
structure Card where
  topText : String
  bottomText : String
  imageURL : String
  hoverWired : Bool
  fontSize : Int
  armed : Bool
deriving DecidableEq, Repr

/-- The page: the meme grid (insertion-ordered), the remembered window width
(`oldWindowWidth`), and the three form fields. -/
structure PageState where
  memeGrid : List Card
  oldWindowWidth : Nat
  imageInput : String
  topTextInput : String
  bottomTextInput : String
deriving DecidableEq, Repr

/-- `String.prototype.toUpperCase` for the caption text. -/
def toUpperCase (s : String) : String :=
  ⟨s.data.map Char.toUpper⟩

/-- `ownCurtainVisible` of `script.js` (lines 248–252): is the curtain of the
card at index `i` visible?  (`false` when no card exists at `i`.) -/
def ownCurtainVisible (cards : List Card) (i : Nat) : Bool :=
  match cards.get? i with
  | some c => c.armed
  | none => false

/-- `deleteMeme` of `script.js` (lines 256–258): remove the card at index `i`
from the grid. -/
def deleteMeme : List Card → Nat → List Card
  | [], _ => []
  | _ :: cs, 0 => cs
  | c :: cs, i + 1 => c :: deleteMeme cs i

/-- `removeCurtain` of `script.js` (lines 263–268): lower the first visible
curtain in document order, if any. -/
def removeCurtain : List Card → List Card
  | [] => []
  | c :: cs =>
    if c.armed then
      { c with armed := false } :: cs
    else
      c :: removeCurtain cs

/-- `addCurtain` of `script.js` (lines 272–275): raise the curtain of the card
at index `i`. -/
def addCurtain : List Card → Nat → List Card
  | [], _ => []
  | c :: cs, 0 => { c with armed := true } :: cs
  | c :: cs, i + 1 => c :: addCurtain cs i

/-- `memeClickHandler` of `script.js` (lines 217–228): `target` is the result
of `e.target.closest(".meme-container")`, as the index of the clicked card
(`none` when the click landed outside every card). -/
def memeClickHandler (cards : List Card) (target : Option Nat) : List Card :=
  match target with
  | some i =>
    if ownCurtainVisible cards i then
      deleteMeme cards i
    else
      addCurtain (removeCurtain cards) i
  | none => removeCurtain cards

/-- `mouseOverHandler` of `script.js` (lines 230–234): lower any visible
curtain, then raise the hovered card's curtain. -/
def mouseOverHandler (cards : List Card) (i : Nat) : List Card :=
  addCurtain (removeCurtain cards) i

/-- `mouseLeaveHandler` of `script.js` (lines 236–239): the departed card is
resolved but unused; whichever curtain is visible is lowered. -/
def mouseLeaveHandler (cards : List Card) (_i : Nat) : List Card :=
  removeCurtain cards

/-- `generateMeme` of `script.js` (lines 62–118): build a card from the three
form fields (captions upper-cased), wire hover handlers iff the hover media
query matches, append the card to the grid, and clear the three fields
(assigning `null` to an input's `value` yields the empty string).
`initialFontSize` is the card's computed font size at creation. -/
def generateMeme (hoverMatches : Bool) (initialFontSize : Int)
    (s : PageState) : PageState :=
  let newCard : Card :=
    { topText := toUpperCase s.topTextInput
      bottomText := toUpperCase s.bottomTextInput
      imageURL := s.imageInput
      hoverWired := hoverMatches
      fontSize := initialFontSize
      armed := false }
  { s with
      memeGrid := s.memeGrid ++ [newCard]
      imageInput := ""
      topTextInput := ""
      bottomTextInput := "" }

/-- Write font size `fs` into the card at index `i` (the effect of
`memeContainer.style.fontSize = ...` on the grid). -/
def setFontSize : List Card → Nat → Int → List Card
  | [], _, _ => []
  | c :: cs, 0, fs => { c with fontSize := fs } :: cs
  | c :: cs, i + 1, fs => c :: setFontSize cs i fs

/-- `memeList.forEach(...)` of `adjustMemeTextSize`: run the fit pass `f` on
every card, each card measured by its own environment `envs i` (its layout at
the current viewport width).  `none` if any card's pass fails to return. -/
def fitPass (f : Meas → Nat → Int → Option Int) (envs : Nat → Meas)
    (fuel : Nat) : Nat → List Card → Option (List Card)
  | _, [] => some []
  | i, c :: cs =>
    match f (envs i) fuel c.fontSize, fitPass f envs fuel (i + 1) cs with
    | some fs, some rest => some ({ c with fontSize := fs } :: rest)
    | _, _ => none

/-- `adjustMemeTextSize` of `script.js` (lines 138–147), acting on the grid:
shrink every card if the window width decreased, grow every card if it
increased, otherwise leave all cards alone. -/
def adjustMemeTextSize (currentWindowWidth oldWindowWidth : Nat)
    (envs : Nat → Meas) (fuel : Nat) (cards : List Card) :
    Option (List Card) :=
  if currentWindowWidth < oldWindowWidth then
    fitPass shrinkTextToFit envs fuel 0 cards
  else if oldWindowWidth < currentWindowWidth then
    fitPass growTextToFit envs fuel 0 cards
  else
    some cards

/-- The discrete events the page reacts to.  `click` carries the index of the
card containing the click target (if any); `resize` carries the new window
width and the measurement environment of each card at that width; `submit`
carries the hover-capability flag and the new card's computed font size;
`imageLoad` carries the loaded card's index and measurement. -/
inductive Event where
  | click (target : Option Nat)
  | mouseOver (i : Nat)
  | mouseLeave (i : Nat)
  | resize (newWidth : Nat) (envs : Nat → Meas) (fuel : Nat)
  | submit (hoverMatches : Bool) (initialFontSize : Int)
  | imageLoad (i : Nat) (m : Meas) (fuel : Nat)

/-- One event-handler invocation.  `none` models a handler that never returns
(the unbounded shrink recursion).  Hover events fire only on cards whose
hover listeners were wired at creation. -/
def step (s : PageState) : Event → Option PageState
  | .click target =>
    some { s with memeGrid := memeClickHandler s.memeGrid target }
  | .mouseOver i =>
    match s.memeGrid.get? i with
    | some c =>
      if c.hoverWired then
        some { s with memeGrid := mouseOverHandler s.memeGrid i }
      else
        some s
    | none => some s
  | .mouseLeave i =>
    match s.memeGrid.get? i with
    | some c =>
      if c.hoverWired then
        some { s with memeGrid := mouseLeaveHandler s.memeGrid i }
      else
        some s
    | none => some s
  | .resize w envs fuel =>
    (adjustMemeTextSize w s.oldWindowWidth envs fuel s.memeGrid).map
      (fun g => { s with memeGrid := g, oldWindowWidth := w })
  | .submit hoverMatches initialFontSize =>
    some (generateMeme hoverMatches initialFontSize s)
  | .imageLoad i m fuel =>
    match s.memeGrid.get? i with
    | some c =>
      (shrinkTextToFit m fuel c.fontSize).map
        (fun fs => { s with memeGrid := setFontSize s.memeGrid i fs })
    | none => some s

/-- Run a sequence of events; `none` as soon as one handler fails to return. -/
def runEvents : List Event → PageState → Option PageState
  | [], s => some s
  | e :: es, s => (step s e).bind (runEvents es)

/-- Number of armed cards (visible curtains) in the grid. -/
def armedCount (cards : List Card) : Nat :=
  cards.countP (fun c => c.armed)

/-- A sequence of grow passes on one card: each element is the card's
measurement environment at the moment of that resize-increase event, with the
fuel available to its backtracking shrink. -/
def growSequence : List (Meas × Nat) → Int → Option Int
  | [], fontSize => some fontSize
  | (m, fuel) :: rest, fontSize =>
    (growTextToFit m fuel fontSize).bind (growSequence rest)

/-! Concrete sample inputs, used to evaluate the definitions on closed
instances. -/

/-- Sample measurement: the caption is as tall as its font size, the
container is 39 px tall; the caption fits exactly at sizes up to 39. -/
def measUpTo39 : Meas := ⟨fun fs => fs.toNat, fun _ => 0, 39⟩

/-- Sample measurement: the caption fits exactly at sizes up to 30. -/
def measUpTo30 : Meas := ⟨fun fs => fs.toNat, fun _ => 0, 30⟩

/-- Sample measurement: the caption fits exactly at sizes up to 18. -/
def measUpTo18 : Meas := ⟨fun fs => fs.toNat, fun _ => 0, 18⟩

/-- Sample measurement: the caption never fits (positive caption height over
a zero-height container). -/
def measNeverFits : Meas := ⟨fun _ => 1, fun _ => 0, 0⟩

/-- Sample page: two click-only cards, the second one armed. -/
def sampleArmedState : PageState :=
  ⟨[⟨"A", "B", "u", false, 16, false⟩, ⟨"C", "D", "v", false, 16, true⟩],
    800, "", "", ""⟩

/-- Sample page: two hover-wired cards, the first one armed. -/
def sampleHoverState : PageState :=
  ⟨[⟨"E", "F", "w", true, 16, true⟩, ⟨"G", "H", "x", true, 16, false⟩],
    800, "", "", ""⟩

/-- Sample page: one card at font size 20, viewport width 800. -/
def sampleWideState : PageState :=
  ⟨[⟨"A", "B", "u", false, 20, false⟩], 800, "", "", ""⟩

end MemeGen

namespace MemeGen

/-! ## Lemmas about the shrink pass -/

/-- When the shrink helper returns, it returns a font size no larger than its
starting size, and the text fits at that size. -/
theorem shrink_le_and_fits (m : Meas) :
    ∀ (fuel : Nat) (fs g : Int),
      shrinkTextToFitHelper m fuel fs = some g → g ≤ fs ∧ textFits m g = true := by
  intro fuel
  induction fuel with
  | zero =>
    intro fs g h
    simp [shrinkTextToFitHelper] at h
  | succ n ih =>
    intro fs g h
    simp only [shrinkTextToFitHelper] at h
    split at h
    case isTrue hf =>
      cases h
      exact ⟨le_refl _, hf⟩
    case isFalse hf =>
      obtain ⟨h1, h2⟩ := ih (fs - 1) g h
      exact ⟨by omega, h2⟩

/-- If the text fits `d` unit steps below the starting size, the shrink helper
returns within `d + 1` steps. -/
theorem shrink_isSome_of_fits (m : Meas) :
    ∀ (d : Nat) (fs : Int), textFits m (fs - (d : Int)) = true →
      ∃ g, shrinkTextToFitHelper m (d + 1) fs = some g := by
  intro d
  induction d with
  | zero =>
    intro fs h
    simp only [Nat.cast_zero, sub_zero] at h
    exact ⟨fs, by simp [shrinkTextToFitHelper, h]⟩
  | succ n ih =>
    intro fs h
    by_cases hf : textFits m fs
    · exact ⟨fs, by simp [shrinkTextToFitHelper, hf]⟩
    · have h' : textFits m (fs - 1 - (n : Int)) = true := by
        have e : fs - 1 - (n : Int) = fs - ((n : Nat) + 1 : Nat) := by
          push_cast
          ring
        rw [e]
        exact h
      obtain ⟨g, hg⟩ := ih (fs - 1) h'
      refine ⟨g, ?_⟩
      rw [shrinkTextToFitHelper.eq_2, if_neg hf]
      exact hg

/-- If no font size reachable by unit decrements from the start ever fits,
the shrink helper never returns (it is `none` for every amount of fuel). -/
theorem shrink_none_of_never_fits (m : Meas) :
    ∀ (fuel : Nat) (fs : Int), (∀ d : Nat, textFits m (fs - (d : Int)) = false) →
      shrinkTextToFitHelper m fuel fs = none := by
  intro fuel
  induction fuel with
  | zero =>
    intro fs _
    rfl
  | succ n ih =>
    intro fs h
    have h0 := h 0
    simp only [Nat.cast_zero, sub_zero] at h0
    have hrec : ∀ d : Nat, textFits m (fs - 1 - (d : Int)) = false := by
      intro d
      have hd := h (d + 1)
      have e : fs - 1 - (d : Int) = fs - ((d : Nat) + 1 : Nat) := by
        push_cast
        ring
      rw [e]
      exact hd
    rw [shrinkTextToFitHelper.eq_2, if_neg (by simp [h0])]
    exact ih (fs - 1) hrec

/-! ## Lemmas about the grow pass -/

/-- A grow pass starting at or below 40 px ends at or below 40 px. -/
theorem grow_le_forty (m : Meas) (fuel : Nat) :
    ∀ (fs : Int), fs ≤ 40 → ∀ g, growTextToFit m fuel fs = some g → g ≤ 40 := by
  intro fs
  induction fs using growTextToFit.induct m fuel with
  | case1 fs h40 =>
    intro hle g hg
    rw [growTextToFit] at hg
    rw [dif_pos h40] at hg
    cases hg
    exact hle
  | case2 fs h40 hfit =>
    intro _ g hg
    rw [growTextToFit] at hg
    rw [dif_neg h40, if_pos hfit] at hg
    have := shrink_le_and_fits m fuel fs g hg
    omega
  | case3 fs h40 hfit ih =>
    intro _ g hg
    rw [growTextToFit] at hg
    rw [dif_neg h40, if_neg hfit] at hg
    exact ih (by omega) g hg

/-- When the grow pass returns, the text fits at the final size or the final
size is at least the 40 px maximum. -/
theorem grow_fits_or_max (m : Meas) (fuel : Nat) :
    ∀ (fs g : Int), growTextToFit m fuel fs = some g →
      textFits m g = true ∨ 40 ≤ g := by
  intro fs
  induction fs using growTextToFit.induct m fuel with
  | case1 fs h40 =>
    intro g hg
    rw [growTextToFit, dif_pos h40] at hg
    cases hg
    exact Or.inr h40
  | case2 fs h40 hfit =>
    intro g hg
    rw [growTextToFit, dif_neg h40, if_pos hfit] at hg
    exact Or.inl (shrink_le_and_fits m fuel fs g hg).2
  | case3 fs h40 hfit ih =>
    intro g hg
    rw [growTextToFit, dif_neg h40, if_neg hfit] at hg
    exact ih g hg

end MemeGen

namespace MemeGen

/-! ## Lemmas about curtains and the armed count -/

/-- `removeCurtain` lowers exactly one curtain when one is visible. -/
theorem armedCount_removeCurtain (cs : List Card) :
    armedCount (removeCurtain cs) = armedCount cs - 1 := by
  induction cs with
  | nil => rfl
  | cons c cs ih =>
    by_cases h : c.armed
    · simp [removeCurtain, h, armedCount, List.countP_cons]
    · simp only [removeCurtain, h, if_false, Bool.false_eq_true]
      simp only [armedCount, List.countP_cons] at ih ⊢
      simp [h]
      omega

/-- `addCurtain` raises at most one curtain. -/
theorem armedCount_addCurtain (cs : List Card) :
    ∀ i, armedCount (addCurtain cs i) ≤ armedCount cs + 1 := by
  induction cs with
  | nil =>
    intro i
    simp [addCurtain, armedCount]
  | cons c cs ih =>
    intro i
    cases i with
    | zero =>
      simp only [addCurtain, armedCount, List.countP_cons] at *
      simp
    | succ i =>
      simp only [addCurtain, armedCount, List.countP_cons] at *
      have := ih i
      omega

/-- Deleting a card cannot raise the armed count. -/
theorem armedCount_deleteMeme (cs : List Card) :
    ∀ i, armedCount (deleteMeme cs i) ≤ armedCount cs := by
  induction cs with
  | nil =>
    intro i
    simp [deleteMeme]
  | cons c cs ih =>
    intro i
    cases i with
    | zero =>
      simp only [deleteMeme, armedCount, List.countP_cons]
      omega
    | succ i =>
      simp only [deleteMeme, armedCount, List.countP_cons] at *
      have := ih i
      omega

/-- Writing a font size touches no curtain. -/
theorem armedCount_setFontSize (cs : List Card) :
    ∀ i fs, armedCount (setFontSize cs i fs) = armedCount cs := by
  induction cs with
  | nil =>
    intro i fs
    simp [setFontSize]
  | cons c cs ih =>
    intro i fs
    cases i with
    | zero => simp [setFontSize, armedCount, List.countP_cons]
    | succ i =>
      simp only [setFontSize, armedCount, List.countP_cons] at *
      rw [ih i fs]

/-! ## Lemmas about fit passes over the whole grid -/

/-- A completed fit pass only rewrites font sizes: pointwise, every card of
the result is the corresponding input card with the font size its own fit
run returned. -/
theorem fitPass_get (f : Meas → Nat → Int → Option Int) (envs : Nat → Meas)
    (fuel : Nat) :
    ∀ (j : Nat) (cs cs' : List Card), fitPass f envs fuel j cs = some cs' →
      cs'.length = cs.length ∧
      ∀ (i : Nat) (c : Card), cs.get? i = some c →
        ∃ fs, f (envs (j + i)) fuel c.fontSize = some fs ∧
          cs'.get? i = some { c with fontSize := fs } := by
  intro j cs
  induction cs generalizing j with
  | nil =>
    intro cs' h
    simp only [fitPass] at h
    cases h
    refine ⟨rfl, ?_⟩
    intro i c hc
    simp at hc
  | cons c cs ih =>
    intro cs' h
    simp only [fitPass] at h
    split at h
    next fs rest heq1 heq2 =>
      cases h
      obtain ⟨hlen, hget⟩ := ih (j + 1) rest heq2
      refine ⟨by simp [hlen], ?_⟩
      intro i c0 hc
      cases i with
      | zero =>
        simp only [List.get?] at hc
        cases hc
        refine ⟨fs, ?_, by simp⟩
        simpa using heq1
      | succ i =>
        simp only [List.get?] at hc
        obtain ⟨fs', h1, h2⟩ := hget i c0 hc
        refine ⟨fs', ?_, by simpa using h2⟩
        have e : j + (i + 1) = j + 1 + i := by omega
        rw [e]
        exact h1
    next =>
      exact Option.noConfusion h

/-- A completed fit pass preserves the armed count. -/
theorem armedCount_fitPass (f : Meas → Nat → Int → Option Int)
    (envs : Nat → Meas) (fuel : Nat) :
    ∀ (j : Nat) (cs cs' : List Card), fitPass f envs fuel j cs = some cs' →
      armedCount cs' = armedCount cs := by
  intro j cs
  induction cs generalizing j with
  | nil =>
    intro cs' h
    simp only [fitPass] at h
    cases h
    rfl
  | cons c cs ih =>
    intro cs' h
    simp only [fitPass] at h
    split at h
    next fs rest heq1 heq2 =>
      cases h
      simp only [armedCount, List.countP_cons] at *
      rw [ih (j + 1) rest heq2]
    next =>
      exact Option.noConfusion h

/-- A completed `adjustMemeTextSize` preserves the armed count. -/
theorem armedCount_adjustMemeTextSize (w oldW : Nat) (envs : Nat → Meas)
    (fuel : Nat) (cs cs' : List Card)
    (h : adjustMemeTextSize w oldW envs fuel cs = some cs') :
    armedCount cs' = armedCount cs := by
  unfold adjustMemeTextSize at h
  split at h
  · exact armedCount_fitPass shrinkTextToFit envs fuel 0 cs cs' h
  · split at h
    · exact armedCount_fitPass growTextToFit envs fuel 0 cs cs' h
    · cases h
      rfl

end MemeGen

namespace MemeGen

/-- The click handler keeps the armed count at most one. -/
theorem memeClickHandler_armedCount (cs : List Card) (t : Option Nat)
    (h : armedCount cs ≤ 1) : armedCount (memeClickHandler cs t) ≤ 1 := by
  cases t with
  | none =>
    simp only [memeClickHandler]
    have h1 := armedCount_removeCurtain cs
    omega
  | some i =>
    simp only [memeClickHandler]
    by_cases hv : ownCurtainVisible cs i = true
    · rw [if_pos hv]
      have h1 := armedCount_deleteMeme cs i
      omega
    · rw [if_neg hv]
      have h1 := armedCount_removeCurtain cs
      have h2 := armedCount_addCurtain (removeCurtain cs) i
      omega

/-- One event handler keeps the armed count at most one. -/
theorem step_armedCount (s s' : PageState) (e : Event)
    (hinv : armedCount s.memeGrid ≤ 1) (h : step s e = some s') :
    armedCount s'.memeGrid ≤ 1 := by
  cases e with
  | click t =>
    simp only [step] at h
    cases h
    exact memeClickHandler_armedCount s.memeGrid t hinv
  | mouseOver i =>
    simp only [step] at h
    split at h
    next c heq =>
      split at h
      · cases h
        simp only [mouseOverHandler]
        have h1 := armedCount_removeCurtain s.memeGrid
        have h2 := armedCount_addCurtain (removeCurtain s.memeGrid) i
        omega
      · cases h
        exact hinv
    next heq =>
      cases h
      exact hinv
  | mouseLeave i =>
    simp only [step] at h
    split at h
    next c heq =>
      split at h
      · cases h
        simp only [mouseLeaveHandler]
        have h1 := armedCount_removeCurtain s.memeGrid
        omega
      · cases h
        exact hinv
    next heq =>
      cases h
      exact hinv
  | resize w envs fuel =>
    simp only [step] at h
    cases hadj : adjustMemeTextSize w s.oldWindowWidth envs fuel s.memeGrid with
    | none =>
      rw [hadj] at h
      simp at h
    | some g =>
      rw [hadj] at h
      simp only [Option.map_some'] at h
      cases h
      have := armedCount_adjustMemeTextSize w s.oldWindowWidth envs fuel
        s.memeGrid g hadj
      simp only []
      omega
  | submit hov fs =>
    simp only [step] at h
    cases h
    simp only [generateMeme, armedCount, List.countP_append, List.countP_cons,
      List.countP_nil]
    simp only [armedCount] at hinv
    simp
    omega
  | imageLoad i m fuel =>
    simp only [step] at h
    split at h
    next c heq =>
      cases hres : shrinkTextToFit m fuel c.fontSize with
      | none =>
        rw [hres] at h
        simp at h
      | some fs =>
        rw [hres] at h
        simp only [Option.map_some'] at h
        cases h
        have := armedCount_setFontSize s.memeGrid i fs
        simp only []
        omega
    next heq =>
      cases h
      exact hinv

/-- A whole event sequence keeps the armed count at most one. -/
theorem runEvents_armedCount (es : List Event) :
    ∀ (s s' : PageState), armedCount s.memeGrid ≤ 1 →
      runEvents es s = some s' → armedCount s'.memeGrid ≤ 1 := by
  induction es with
  | nil =>
    intro s s' h hr
    cases hr
    exact h
  | cons e es ih =>
    intro s s' h hr
    simp only [runEvents] at hr
    cases hstep : step s e with
    | none =>
      rw [hstep] at hr
      simp at hr
    | some s1 =>
      rw [hstep] at hr
      exact ih s1 s' (step_armedCount s s1 e h hstep) hr

/-! ## Lemmas about deletion -/

/-- `deleteMeme` removes exactly the card at the given index. -/
theorem deleteMeme_eq_take_drop (cs : List Card) :
    ∀ i, deleteMeme cs i = cs.take i ++ cs.drop (i + 1) := by
  induction cs with
  | nil =>
    intro i
    simp [deleteMeme]
  | cons c cs ih =>
    intro i
    cases i with
    | zero => simp [deleteMeme]
    | succ i => simp [deleteMeme, ih i]

/-- Deleting an existing card shrinks the grid by exactly one. -/
theorem length_deleteMeme (cs : List Card) :
    ∀ i c, cs.get? i = some c → (deleteMeme cs i).length + 1 = cs.length := by
  induction cs with
  | nil =>
    intro i c h
    simp at h
  | cons c0 cs ih =>
    intro i c h
    cases i with
    | zero => simp [deleteMeme]
    | succ i =>
      simp only [List.get?] at h
      simp only [deleteMeme, List.length_cons]
      have := ih i c h
      omega

/-- Deleting the unique armed card leaves every remaining card unarmed. -/
theorem deleteMeme_unarmed (cs : List Card) :
    ∀ i c, cs.get? i = some c → c.armed = true → armedCount cs ≤ 1 →
      ∀ c' ∈ deleteMeme cs i, c'.armed = false := by
  induction cs with
  | nil =>
    intro i c h
    simp at h
  | cons c0 cs ih =>
    intro i c h harm hinv
    cases i with
    | zero =>
      simp only [List.get?] at h
      cases h
      simp only [deleteMeme]
      intro c' hc'
      simp only [armedCount, List.countP_cons, harm, if_pos] at hinv
      have h0 : List.countP (fun x => x.armed) cs = 0 := by omega
      have := List.countP_eq_zero.mp h0 c' hc'
      simpa using this
    | succ i =>
      simp only [List.get?] at h
      simp only [deleteMeme]
      intro c' hc'
      rcases List.mem_cons.mp hc' with rfl | hmem
      · have hc_mem : c ∈ cs := List.get?_mem h
        have hpos : 0 < List.countP (fun x => x.armed) cs :=
          List.countP_pos_iff.mpr ⟨c, hc_mem, harm⟩
        cases hb : c'.armed with
        | false => rfl
        | true =>
          exfalso
          simp only [armedCount, List.countP_cons, hb, if_pos] at hinv
          omega
      · refine ih i c h harm ?_ c' hmem
        simp only [armedCount, List.countP_cons] at hinv ⊢
        omega

/-- With at most one curtain visible, `removeCurtain` leaves every card
unarmed. -/
theorem removeCurtain_unarmed (cs : List Card) (h1 : armedCount cs ≤ 1) :
    ∀ c' ∈ removeCurtain cs, c'.armed = false := by
  have h2 := armedCount_removeCurtain cs
  have h0 : armedCount (removeCurtain cs) = 0 := by omega
  intro c' hc'
  have := List.countP_eq_zero.mp h0 c' hc'
  simpa using this

end MemeGen

namespace MemeGen

/-! ## The claims -/

/-- C10: a grow pass invoked on a card whose font size is already at least
40 px returns immediately with the font size unchanged, for every measurement
environment — in particular even when the caption does not fit at that
size. -/
theorem c10_grow_at_max_returns (m : Meas) (fuel : Nat) (fontSize : Int)
    (h : 40 ≤ fontSize) :
    growTextToFit m fuel fontSize = some fontSize := by
  rw [growTextToFit, dif_pos h]

/-- C10 witness: at font size 45 under a measurement where the caption never
fits, the grow pass still returns 45 unchanged. -/
theorem c10_grow_at_max_returns_witness :
    (40 : Int) ≤ 45 ∧ growTextToFit measNeverFits 3 45 = some 45 ∧
      textFits measNeverFits 45 = false :=
  ⟨by norm_num, c10_grow_at_max_returns measNeverFits 3 45 (by norm_num), rfl⟩

/-- C1 counterexample: a fit pass (a grow pass, as triggered by a
width-increase resize) that completes with the caption still overflowing the
card and the font size at the 40 px maximum, not at any minimum: under
`measUpTo39` the caption fits at every size up to 39 and overflows at 40;
growing from 39 completes at 40, where the caption of height 40 exceeds the
card height 39 while the strictly smaller size 39 would fit. -/
theorem c1_growPass_completes_without_fit :
    growTextToFit measUpTo39 5 39 = some 40 ∧
    textFits measUpTo39 40 = false ∧
    textFits measUpTo39 39 = true := by
  refine ⟨?_, by decide, by decide⟩
  simp [growTextToFit, textFits, measUpTo39, shrinkTextToFit,
    shrinkTextToFitHelper]

/-- C1 (amended): after any fit pass completes, the caption fits within the
card OR the font size is at the 40 px maximum or above: a completed shrink
pass always establishes the fit predicate, and a completed grow pass either
establishes it or stops at `MAX_FONT` (40) without re-measuring. -/
theorem c1_fitPass_fits_or_max (m : Meas) (fuel : Nat) (fs g : Int) :
    (shrinkTextToFit m fuel fs = some g → textFits m g = true) ∧
    (growTextToFit m fuel fs = some g → textFits m g = true ∨ 40 ≤ g) := by
  constructor
  · intro h
    exact (shrink_le_and_fits m fuel fs g h).2
  · intro h
    exact grow_fits_or_max m fuel fs g h

/-- C1 witness: the amended postcondition on two concrete completed passes: a
shrink pass from 45 lands on 39 where the caption fits; a grow pass from 39
stops at the 40 px maximum. -/
theorem c1_fitPass_fits_or_max_witness :
    textFits measUpTo39 39 = true ∧
      (textFits measUpTo39 40 = true ∨ (40 : Int) ≤ 40) := by
  constructor
  · exact (c1_fitPass_fits_or_max measUpTo39 7 45 39).1 (by decide)
  · exact (c1_fitPass_fits_or_max measUpTo39 5 39 40).2
      (by simp [growTextToFit, textFits, measUpTo39, shrinkTextToFit,
        shrinkTextToFitHelper])

/-- C3: a card whose font size is at most 40 px keeps a font size of at most
40 px under any sequence of grow events (each with its own measurement
environment and fuel). -/
theorem c3_growSequence_le_forty (passes : List (Meas × Nat)) :
    ∀ (fs g : Int), fs ≤ 40 → growSequence passes fs = some g → g ≤ 40 := by
  induction passes with
  | nil =>
    intro fs g h hr
    cases hr
    exact h
  | cons p rest ih =>
    obtain ⟨m, fuel⟩ := p
    intro fs g h hr
    simp only [growSequence] at hr
    cases hg : growTextToFit m fuel fs with
    | none =>
      rw [hg] at hr
      simp at hr
    | some mid =>
      rw [hg] at hr
      exact ih mid g (grow_le_forty m fuel fs h mid hg) hr

/-- C3 witness: two grow events from size 38 end at exactly 40, not above. -/
theorem c3_growSequence_le_forty_witness :
    (38 : Int) ≤ 40 ∧
      growSequence [(measUpTo39, 5), (measUpTo39, 5)] 38 = some 40 ∧
      (40 : Int) ≤ 40 := by
  have h1 : growTextToFit measUpTo39 5 38 = some 40 := by
    simp [growTextToFit, textFits, measUpTo39, shrinkTextToFit,
      shrinkTextToFitHelper]
  have h2 : growTextToFit measUpTo39 5 40 = some 40 := by
    rw [growTextToFit]
    norm_num
  have hrun : growSequence [(measUpTo39, 5), (measUpTo39, 5)] 38 = some 40 := by
    simp only [growSequence]
    rw [h1]
    show growSequence [(measUpTo39, 5)] 40 = some 40
    simp only [growSequence]
    rw [h2]
    rfl
  exact ⟨by norm_num,  hrun,
    c3_growSequence_le_forty [(measUpTo39, 5), (measUpTo39, 5)] 38 40
      (by norm_num) hrun⟩

/-- C5: the shrink pass returns — and then establishes the fit predicate at a
size no larger than the start — precisely under the precondition that some
font size at most the starting size satisfies the predicate; when no such
size exists the recursion never returns (`none` for every fuel), the loop
having no explicit lower bound. -/
theorem c5_shrink_terminates_iff (m : Meas) (fs : Int) :
    ((∃ gfit : Int, gfit ≤ fs ∧ textFits m gfit = true) →
      ∃ fuel g, shrinkTextToFit m fuel fs = some g ∧ textFits m g = true ∧
        g ≤ fs) ∧
    ((∀ gfit : Int, gfit ≤ fs → textFits m gfit = false) →
      ∀ fuel, shrinkTextToFit m fuel fs = none) := by
  constructor
  · rintro ⟨gfit, hle, hfit⟩
    have hd : textFits m (fs - (((fs - gfit).toNat : Nat) : Int)) = true := by
      have e : fs - (((fs - gfit).toNat : Nat) : Int) = gfit := by omega
      rw [e]
      exact hfit
    obtain ⟨g, hg⟩ := shrink_isSome_of_fits m (fs - gfit).toNat fs hd
    obtain ⟨hgle, hgfit⟩ := shrink_le_and_fits m _ fs g hg
    exact ⟨(fs - gfit).toNat + 1, g, hg, hgfit, hgle⟩
  · intro h fuel
    apply shrink_none_of_never_fits
    intro d
    exact h (fs - (d : Int)) (by omega)

/-- C5 witness: from 45 with sizes up to 39 fitting, some fuel returns a
fitting size; under a measurement where nothing ever fits, the run from 5
returns `none` at fuel 7. -/
theorem c5_shrink_terminates_iff_witness :
    (∃ fuel g, shrinkTextToFit measUpTo39 fuel 45 = some g ∧
      textFits measUpTo39 g = true ∧ g ≤ 45) ∧
    shrinkTextToFit measNeverFits 7 5 = none :=
  ⟨(c5_shrink_terminates_iff measUpTo39 45).1 ⟨39, by norm_num, by decide⟩,
    (c5_shrink_terminates_iff measNeverFits 5).2 (fun gfit _ => rfl) 7⟩

end MemeGen

namespace MemeGen

/-- C4: starting from a size at which the caption fits, below the maximum, the
grow pass increments by one and re-measures until MAX_FONT (40) is reached or
the fit predicate fails; in the latter case the final size `g` is the last
size at which the caption fit, the predicate fails at the over-grown size
`g + 1`, and the fall-back shrink pass from `g + 1` decrements exactly one
step, returning `g`. -/
theorem c4_grow_overshoots_one_step (m : Meas) (fuel : Nat) (fs : Int)
    (hfit : textFits m fs = true) (hlt : fs < 40) (hfuel : 2 ≤ fuel) :
    ∃ g, growTextToFit m fuel fs = some g ∧ fs ≤ g ∧ g ≤ 40 ∧
      (g = 40 ∨
        (textFits m g = true ∧ textFits m (g + 1) = false ∧
          shrinkTextToFit m fuel (g + 1) = some g)) := by
  revert hfit hlt
  induction fs using growTextToFit.induct m fuel with
  | case1 fs h =>
    intro hfit hlt
    omega
  | case2 fs h hff =>
    intro hfit hlt
    rw [hfit] at hff
    exact Bool.noConfusion hff
  | case3 fs h hff ih =>
    intro hfit hlt
    have hstep : growTextToFit m fuel fs = growTextToFit m fuel (fs + 1) := by
      rw [growTextToFit, dif_neg h, if_neg hff]
    by_cases h41 : 40 ≤ fs + 1
    · refine ⟨fs + 1, ?_, by omega, by omega, Or.inl (by omega)⟩
      rw [hstep, growTextToFit, dif_pos h41]
    · by_cases hfit1 : textFits m (fs + 1) = true
      · obtain ⟨g, hg, hle, hle40, hrest⟩ := ih hfit1 (by omega)
        exact ⟨g, by rw [hstep]; exact hg, by omega, hle40, hrest⟩
      · have hff1 : textFits m (fs + 1) = false := by
          simpa using hfit1
        have hshrink : shrinkTextToFit m fuel (fs + 1) = some fs := by
          obtain ⟨k, rfl⟩ : ∃ k, fuel = k + 2 := ⟨fuel - 2, by omega⟩
          show shrinkTextToFitHelper m (k + 2) (fs + 1) = some fs
          rw [show k + 2 = (k + 1) + 1 from rfl, shrinkTextToFitHelper.eq_2,
            if_neg (by simp [hff1])]
          have e : fs + 1 - 1 = fs := by omega
          rw [e, shrinkTextToFitHelper.eq_2, if_pos hfit]
        refine ⟨fs, ?_, le_refl fs, by omega, Or.inr ⟨hfit, hff1, hshrink⟩⟩
        rw [hstep, growTextToFit, dif_neg (by omega : ¬ (40 : Int) ≤ fs + 1),
          if_pos hff1]
        exact hshrink

/-- C4 witness: under `measUpTo30` (fits exactly up to size 30), growing from
28 overshoots to 31, backtracks in exactly one shrink step, and returns 30,
the last size at which the caption fit. -/
theorem c4_grow_overshoots_one_step_witness :
    textFits measUpTo30 28 = true ∧ (28 : Int) < 40 ∧ 2 ≤ 2 ∧
      (∃ g, growTextToFit measUpTo30 2 28 = some g ∧ (28 : Int) ≤ g ∧
        g ≤ 40 ∧
        (g = 40 ∨
          (textFits measUpTo30 g = true ∧ textFits measUpTo30 (g + 1) = false ∧
            shrinkTextToFit measUpTo30 2 (g + 1) = some g))) :=
  ⟨by decide, by norm_num, by norm_num,
    c4_grow_overshoots_one_step measUpTo30 2 28 (by decide) (by norm_num)
      (by norm_num)⟩

end MemeGen

namespace MemeGen

/-- C2: starting from any state in which no card is armed, after every event
handler (click/activate, mouse-over, mouse-leave, resize, form submit, image
load) in any interleaving of events returns, at most one card in the
collection has a visible curtain. -/
theorem c2_at_most_one_armed (es : List Event) (s0 s' : PageState)
    (h0 : ∀ c ∈ s0.memeGrid, c.armed = false)
    (hrun : runEvents es s0 = some s') :
    armedCount s'.memeGrid ≤ 1 := by
  have hz : armedCount s0.memeGrid = 0 :=
    List.countP_eq_zero.mpr (by intro c hc; simp [h0 c hc])
  exact runEvents_armedCount es s0 s' (by omega) hrun

/-- C2 witness: from an empty page, submitting a meme and then clicking it
(arming its curtain) leaves exactly one armed card, within the invariant. -/
theorem c2_at_most_one_armed_witness :
    armedCount (PageState.memeGrid
      ⟨[⟨"TOP", "BOT", "u", true, 16, true⟩], 800, "", "", ""⟩) ≤ 1 :=
  c2_at_most_one_armed [Event.submit true 16, Event.click (some 0)]
    ⟨[], 800, "u", "Top", "Bot"⟩
    ⟨[⟨"TOP", "BOT", "u", true, 16, true⟩], 800, "", "", ""⟩
    (by intro c hc; exact absurd hc (List.not_mem_nil c)) rfl

/-- C6: when the armed card is activated again, exactly that card is removed
from the collection (the rest of the grid is the untouched prefix and
suffix), the collection size decreases by exactly one, and every remaining
card is unarmed. -/
theorem c6_click_armed_deletes (s : PageState) (i : Nat) (c : Card)
    (hc : s.memeGrid.get? i = some c) (harm : c.armed = true)
    (hinv : armedCount s.memeGrid ≤ 1) :
    step s (Event.click (some i)) =
      some { s with
        memeGrid := s.memeGrid.take i ++ s.memeGrid.drop (i + 1) } ∧
    (s.memeGrid.take i ++ s.memeGrid.drop (i + 1)).length + 1 =
      s.memeGrid.length ∧
    ∀ c' ∈ s.memeGrid.take i ++ s.memeGrid.drop (i + 1), c'.armed = false := by
  have hvis : ownCurtainVisible s.memeGrid i = true := by
    unfold ownCurtainVisible
    rw [hc]
    exact harm
  have htd := deleteMeme_eq_take_drop s.memeGrid i
  refine ⟨?_, ?_, ?_⟩
  · simp only [step, memeClickHandler, hvis, if_pos, htd]
  · rw [← htd]
    exact length_deleteMeme s.memeGrid i c hc
  · rw [← htd]
    exact deleteMeme_unarmed s.memeGrid i c hc harm hinv

/-- C6 witness: on a two-card page whose second card is armed, clicking the
second card deletes it, shrinks the grid from two cards to one, and leaves
the remaining card unarmed. -/
theorem c6_click_armed_deletes_witness :
    step sampleArmedState (Event.click (some 1)) =
      some { sampleArmedState with
        memeGrid := sampleArmedState.memeGrid.take 1 ++
          sampleArmedState.memeGrid.drop 2 } ∧
    (sampleArmedState.memeGrid.take 1 ++
        sampleArmedState.memeGrid.drop 2).length + 1 =
      sampleArmedState.memeGrid.length ∧
    ∀ c' ∈ sampleArmedState.memeGrid.take 1 ++
        sampleArmedState.memeGrid.drop 2, c'.armed = false :=
  c6_click_armed_deletes sampleArmedState 1 ⟨"C", "D", "v", false, 16, true⟩
    (by decide) (by decide) (by decide)

/-- C9: in any state satisfying the single-armed invariant in which some card
is armed, a mouse-leave event on ANY hover-wired card — the armed one or a
different one — lowers the visible curtain, leaving no card armed: the leave
handler removes whichever curtain is visible anywhere in the grid, not only
the departed card's own. -/
theorem c9_mouseLeave_disarms_all (s : PageState) (cIdx d : Nat) (c cd : Card)
    (hc : s.memeGrid.get? cIdx = some c) (harm : c.armed = true)
    (hd : s.memeGrid.get? d = some cd) (hdw : cd.hoverWired = true)
    (hinv : armedCount s.memeGrid ≤ 1) :
    step s (Event.mouseLeave d) =
      some { s with memeGrid := removeCurtain s.memeGrid } ∧
    ∀ c' ∈ removeCurtain s.memeGrid, c'.armed = false := by
  constructor
  · simp only [step, hd, hdw, if_pos, mouseLeaveHandler]
  · exact removeCurtain_unarmed s.memeGrid hinv

/-- C9 witness: the first card is armed; a mouse-leave on the second,
different, unarmed card still lowers the first card's curtain, leaving no
card armed. -/
theorem c9_mouseLeave_disarms_all_witness :
    step sampleHoverState (Event.mouseLeave 1) =
      some { sampleHoverState with
        memeGrid := removeCurtain sampleHoverState.memeGrid } ∧
    ∀ c' ∈ removeCurtain sampleHoverState.memeGrid, c'.armed = false :=
  c9_mouseLeave_disarms_all sampleHoverState 0 1
    ⟨"E", "F", "w", true, 16, true⟩ ⟨"G", "H", "x", true, 16, false⟩
    (by decide) (by decide) (by decide) (by decide) (by decide)

/-- C7: a resize to a smaller viewport width, once its handler returns, has
run a shrink pass over every card: the grid keeps its length, every card's
font size is at most its pre-resize value, and every card's caption fits its
new layout. -/
theorem c7_resize_decrease_monotone (s s' : PageState) (w : Nat)
    (envs : Nat → Meas) (fuel : Nat)
    (hdec : w < s.oldWindowWidth)
    (h : step s (Event.resize w envs fuel) = some s') :
    s'.memeGrid.length = s.memeGrid.length ∧
    ∀ (i : Nat) (c c' : Card), s.memeGrid.get? i = some c →
      s'.memeGrid.get? i = some c' →
      c'.fontSize ≤ c.fontSize ∧ textFits (envs i) c'.fontSize = true := by
  simp only [step] at h
  cases hadj : adjustMemeTextSize w s.oldWindowWidth envs fuel s.memeGrid with
  | none =>
    rw [hadj] at h
    simp at h
  | some g =>
    rw [hadj] at h
    simp only [Option.map_some'] at h
    cases h
    unfold adjustMemeTextSize at hadj
    rw [if_pos hdec] at hadj
    obtain ⟨hlen, hget⟩ := fitPass_get shrinkTextToFit envs fuel 0 s.memeGrid
      g hadj
    refine ⟨hlen, ?_⟩
    intro i c c' hc hc'
    obtain ⟨fs, hf, hg⟩ := hget i c hc
    simp only [Nat.zero_add] at hf
    rw [hg] at hc'
    cases hc'
    have := shrink_le_and_fits (envs i) fuel c.fontSize fs hf
    exact ⟨this.1, this.2⟩

/-- C7 witness: viewport 800 → 600 with one card at size 20 whose caption
fits up to 18: the handler returns with the card at size 18 ≤ 20, fitting. -/
theorem c7_resize_decrease_monotone_witness :
    (PageState.memeGrid
        ⟨[⟨"A", "B", "u", false, 18, false⟩], 600, "", "", ""⟩).length =
      sampleWideState.memeGrid.length ∧
    ∀ (i : Nat) (c c' : Card), sampleWideState.memeGrid.get? i = some c →
      (PageState.memeGrid
        ⟨[⟨"A", "B", "u", false, 18, false⟩], 600, "", "", ""⟩).get? i =
          some c' →
      c'.fontSize ≤ c.fontSize ∧ textFits measUpTo18 c'.fontSize = true :=
  c7_resize_decrease_monotone sampleWideState
    ⟨[⟨"A", "B", "u", false, 18, false⟩], 600, "", "", ""⟩ 600
    (fun _ => measUpTo18) 5 (by norm_num [sampleWideState]) rfl

/-- C8: submitting the form with image URL `u1`, top text "Hello" and bottom
text "World" appends exactly one card, whose caption lines are the
upper-cased "HELLO" and "WORLD", and leaves all three input fields empty. -/
theorem c8_generateMeme_scenario (hover : Bool) (fsInit : Int)
    (grid : List Card) (oldW : Nat) (u1 : String) :
    (generateMeme hover fsInit ⟨grid, oldW, u1, "Hello", "World"⟩).memeGrid =
      grid ++ [⟨"HELLO", "WORLD", u1, hover, fsInit, false⟩] ∧
    (generateMeme hover fsInit ⟨grid, oldW, u1, "Hello", "World"⟩).imageInput
      = "" ∧
    (generateMeme hover fsInit
      ⟨grid, oldW, u1, "Hello", "World"⟩).topTextInput = "" ∧
    (generateMeme hover fsInit
      ⟨grid, oldW, u1, "Hello", "World"⟩).bottomTextInput = "" :=
  ⟨rfl, rfl, rfl, rfl⟩

end MemeGen
